import Mathlib

/-!
Shallow embedding of `proj` (src/main.go), a small CLI that registers named
projects in a SQLite table, mirrors each record to a sidecar `proj.yml` file,
and starts/stops projects by running their shell command.

The embedding models:
  * the `Project` record (struct `Project` in main.go);
  * the SQLite table `projects` (primary key `Id`) as a list of rows in
    rowid order; `INSERT OR REPLACE` (SaveProject) deletes the rows that
    conflict on the primary key and appends the fresh row at the end, an
    `UPDATE ... WHERE Id = ?` (UpdateProject) rewrites matching rows in
    place, and `QueryRow` (LoadProject) returns the first row in rowid
    order matching the `WHERE Name = ?` clause;
  * failure outcomes: `cliError` (colored message, `os.Exit(1)`) versus a
    Go `panic` (uncolored runtime message on stderr, exit status 2);
  * the subprocess invocation `exec.Command("sh", "-c", cmd, path)` with
    its working directory left unset, stdout captured to a buffer, and a
    non-zero exit surfaced as the Go error string `exit status N`.

The `CreatedAt` column is write-only metadata: no SELECT in the program
reads it back, so rows are modelled by the five fields of the Go struct.
-/

/-- The `Project` struct of main.go (yaml keys id/name/path/command/tear_down). -/
structure Project where
  ID : String
  Name : String
  Path : String
  Command : String
  TearDown : String
deriving DecidableEq, Repr

/-- The `projects` table, as its rows in rowid order. -/
abbrev Store := List Project

/-- A terminal failure of the program: `cliError` prints a colored message
and calls `os.Exit(1)`; a Go `panic` prints an uncolored runtime message to
stderr and the process exits with status 2. -/
inductive Failure where
  | cliError (msg : String)
  | goPanic (msg : String)
deriving DecidableEq, Repr

/-- Rows deleted by a primary-key conflict of `INSERT OR REPLACE`:
every row whose `Id` equals the incoming id is removed. -/
def deleteById (s : Store) (id : String) : Store :=
  List.filter (fun row => row.ID != id) s

/-- `SaveProject` (main.go, `add` statement): `INSERT OR REPLACE INTO
projects ...` keyed on the primary key `Id`. Conflicting rows are deleted
and the fresh row is inserted with a new rowid (hence at the end). -/
def SaveProject (s : Store) (p : Project) : Store :=
  deleteById s p.ID ++ [p]

/-- `UpdateProject` (main.go, `update` statement): `UPDATE projects SET
Name = ?, Command = ?, Path = ?, TearDown = ? WHERE Id = ?` — every row
matching on `Id` has its four non-key fields overwritten in place. -/
def UpdateProject (s : Store) (p : Project) : Store :=
  match s with
  | [] => []
  | row :: rest =>
    (if row.ID = p.ID then
      { ID := row.ID, Name := p.Name, Path := p.Path,
        Command := p.Command, TearDown := p.TearDown }
     else row) :: UpdateProject rest p

/-- `LoadProject` (main.go, `find` statement): `SELECT ... WHERE Name = ?`
through `QueryRow`, which yields the first matching row in rowid order;
`row.Scan` on an empty result errors and `cliError` exits the process. -/
def LoadProject (s : Store) (name : String) : Except Failure Project :=
  match List.find? (fun row => row.Name == name) s with
  | some p => Except.ok p
  | none => Except.error (Failure.cliError "Failed to load project.")

/-- The record built by `main`'s `init` branch: the id is the literal
string "123", the other fields come from the CLI flags. -/
def mkInitProject (name path command teardown : String) : Project :=
  { ID := "123", Name := name, Path := path,
    Command := command, TearDown := teardown }

/-- The filesystem, as path-to-content bindings. -/
abbrev FS := List (String × String)

/-- `ioutil.WriteFile`: bind `path` to `content`, replacing any previous
binding. -/
def writeFile (fs : FS) (path content : String) : FS :=
  (path, content) :: List.filter (fun e => e.1 != path) fs

/-- `CreateProjectFile` (success path): marshal the record to YAML (the
serializer is a parameter; the program only cares that some bytes are
produced) and write them to `path + "/proj.yml"`. -/
def CreateProjectFile (marshal : Project → String) (fs : FS) (p : Project) : FS :=
  writeFile fs (p.Path ++ "/proj.yml") (marshal p)

/-- `InitProject`: write the sidecar file, then upsert the record. -/
def InitProject (marshal : Project → String) (fs : FS) (s : Store) (p : Project) :
    FS × Store :=
  (CreateProjectFile marshal fs p, SaveProject s p)

/-- `CommitChanges` (success path): the record parsed from `./proj.yml`
is handed to `UpdateProject`. -/
def CommitChanges (p : Project) (s : Store) : Store :=
  UpdateProject s p

/-- A spawned subprocess: its argv and its working directory
(`exec.Cmd.Dir`; `none` means the invoking process's current directory). -/
structure Invocation where
  argv : List String
  dir : Option String
deriving DecidableEq, Repr

/-- `StartProject` builds `exec.Command("sh", "-c", project.Command,
project.Path)` and never sets `cmd.Dir`. -/
def startInvocation (p : Project) : Invocation :=
  { argv := ["sh", "-c", p.Command, p.Path], dir := none }

/-- `StopProject` builds `exec.Command("sh", "-c", project.TearDown,
project.Path)` and never sets `cmd.Dir`. -/
def stopInvocation (p : Project) : Invocation :=
  { argv := ["sh", "-c", p.TearDown, p.Path], dir := none }

/-- The host shell, as an oracle from an invocation's argv to the exit
status and the bytes the process wrote to stdout. -/
def ShellExec := List String → Nat × String

/-- Go's `(*ExitError).Error()` string for a non-zero exit status. -/
def exitStatusMsg (code : Nat) : String :=
  "exit status " ++ toString code

/-- `cmd.Run()` with `cmd.Stdout` attached to a buffer: exit 0 yields the
captured stdout, a non-zero exit makes `cliError(err)` print the Go error
string (stderr is not captured and the buffered stdout is discarded). -/
def runInvocation (shell : ShellExec) (inv : Invocation) : Except Failure String :=
  let res := shell inv.argv
  if res.1 == 0 then Except.ok res.2
  else Except.error (Failure.cliError (exitStatusMsg res.1))

/-- `StartProject`: load by name, run the command, return captured stdout. -/
def StartProject (shell : ShellExec) (s : Store) (name : String) :
    Except Failure String :=
  match LoadProject s name with
  | Except.error f => Except.error f
  | Except.ok p => runInvocation shell (startInvocation p)

/-- `StopProject`: load by name, run the teardown command. -/
def StopProject (shell : ShellExec) (s : Store) (name : String) :
    Except Failure String :=
  match LoadProject s name with
  | Except.error f => Except.error f
  | Except.ok p => runInvocation shell (stopInvocation p)

/-- A prepared SQL statement handle (its identity carries no data here). -/
abbrev Stmt := Unit

/-- `db.Prepare`: yields the statement on success and the Go `nil` pointer
on failure (the accompanying error value may or may not be inspected by
the caller). -/
def prepareStmt (ok : Bool) : Option Stmt :=
  if ok then some () else none

/-- Outcome of calling `stmt.Exec` on a possibly-nil `*sql.Stmt`. -/
inductive StmtOutcome where
  | nilPanic
  | execErr
  | execOk
deriving DecidableEq, Repr

/-- Calling a method on a nil `*sql.Stmt` is a Go nil-pointer dereference
(runtime panic); otherwise `Exec` either errors or succeeds. -/
def runStmt (stmt : Option Stmt) (execFails : Bool) : StmtOutcome :=
  match stmt with
  | none => StmtOutcome.nilPanic
  | some _ => if execFails then StmtOutcome.execErr else StmtOutcome.execOk

/-- The Go runtime panic message for a nil pointer dereference. -/
def nilDerefMsg : String :=
  "runtime error: invalid memory address or nil pointer dereference"

/-- `SaveProject` with its failure paths: the error returned by
`db.Prepare(add)` is dropped (immediately overwritten by the `Exec`
result), so `stmt.Close`/`stmt.Exec` run on the possibly-nil statement;
an `Exec` error goes through `cliError("Failed to save project.")`. -/
def SaveProjectRun (prepOk execFails : Bool) (s : Store) (p : Project) :
    Except Failure Store :=
  match runStmt (prepareStmt prepOk) execFails with
  | StmtOutcome.nilPanic => Except.error (Failure.goPanic nilDerefMsg)
  | StmtOutcome.execErr => Except.error (Failure.cliError "Failed to save project.")
  | StmtOutcome.execOk => Except.ok (SaveProject s p)

/-- A stored row named "n" with id "A". -/
def rowA : Project := ⟨"A", "n", "pathA", "cmdA", "tdA"⟩

/-- A record named "n" with the different id "B". -/
def recB : Project := ⟨"B", "n", "pathB", "cmdB", "tdB"⟩

/-- A record sharing id "A" and name "n" with `rowA` but with fresh
path/command/teardown values. -/
def rowA2 : Project := ⟨"A", "n", "pathA2", "cmdA2", "tdA2"⟩

/-- A shell oracle whose every command exits with status 1 after writing
"boom" to stdout. -/
def failShell : ShellExec := fun _ => (1, "boom")

/-- `UpdateProject` rewrites each row independently: helper
characterization as a map over the table. -/
theorem updateProject_map (s : Store) (p : Project) :
    UpdateProject s p = s.map (fun row =>
      if row.ID = p.ID then
        { ID := row.ID, Name := p.Name, Path := p.Path,
          Command := p.Command, TearDown := p.TearDown }
      else row) := by
  induction s with
  | nil => rfl
  | cons a t ih => simp only [UpdateProject, List.map_cons, ih]

-- Theorems

/-- C6: `SaveProject` is an idempotent upsert keyed by id: saving the same
record twice leaves the same store as saving it once. -/
theorem saveProject_idempotent (s : Store) (p : Project) :
    SaveProject (SaveProject s p) p = SaveProject s p := by
  unfold SaveProject deleteById
  rw [List.filter_append]
  simp [List.filter_filter]

/-- C3: looking up a name matching no stored row yields the `cliError`
failure (exit, not a zero-value record): no `Except.ok` result exists. -/
theorem loadProject_not_found (s : Store) (name : String)
    (h : ∀ p ∈ s, p.Name ≠ name) :
    LoadProject s name = Except.error (Failure.cliError "Failed to load project.")
      ∧ ∀ p, LoadProject s name ≠ Except.ok p := by
  have hfind : List.find? (fun row => row.Name == name) s = none := by
    apply List.find?_eq_none.mpr
    intro x hx
    simpa using h x hx
  refine ⟨?_, ?_⟩
  · unfold LoadProject
    rw [hfind]
  · intro p
    unfold LoadProject
    rw [hfind]
    simp

/-- Witness for C3 at a concrete store and name. -/
theorem loadProject_not_found_witness :
    LoadProject [rowA] "m" = Except.error (Failure.cliError "Failed to load project.") :=
  (loadProject_not_found [rowA] "m" (by decide)).1

/-- C1 counterexample: the record parsed from the sidecar file (`recB`)
has the same name as the stored row `rowA` but a different id; `commit`
leaves the store untouched, so the name-matched row's Path is NOT
overwritten as the claim states. -/
theorem commitChanges_matches_by_name_counterexample :
    rowA.Name = recB.Name ∧
    CommitChanges recB [rowA] = [rowA] ∧
    rowA.Path ≠ recB.Path :=
  ⟨rfl, rfl, by decide⟩

/-- C1 (amended): `commit` updates exactly the store rows whose Id equals
the parsed record's id, overwriting their Name, Path, Command and
TearDown while leaving the id itself unchanged, and leaves every other
row unchanged (same number of rows, each row rewritten independently). -/
theorem commitChanges_updates_by_id (s : Store) (p : Project) :
    (CommitChanges p s).length = s.length ∧
    ∀ i, (h : i < s.length) →
      (CommitChanges p s)[i]? =
        some (if (s[i]).ID = p.ID then
          { ID := (s[i]).ID, Name := p.Name, Path := p.Path,
            Command := p.Command, TearDown := p.TearDown }
        else s[i]) := by
  constructor
  · show (UpdateProject s p).length = s.length
    rw [updateProject_map, List.length_map]
  · intro i h
    show (UpdateProject s p)[i]? = _
    rw [updateProject_map, List.getElem?_map,
      List.getElem?_eq_getElem h]
    rfl

/-- Witness for C1 (amended) at a concrete store, record and index. -/
theorem commitChanges_updates_by_id_witness :
    (CommitChanges recB [rowA]).length = 1 ∧
    (CommitChanges recB [rowA])[0]? = some rowA := by
  have h := commitChanges_updates_by_id [rowA] recB
  have h2 := h.2 0 (by decide)
  refine ⟨h.1, ?_⟩
  rw [h2]
  decide

/-- C2: `SaveProject` is keyed on id only: the fresh row is always
present; rows with a different id survive untouched; a row that shared
the incoming id is gone (silently overwritten); and a stored row sharing
only the name survives alongside the fresh row, leaving two distinct
rows with the same name (no name-uniqueness check). The success path
`SaveProjectRun true false` reports no error. -/
theorem saveProject_upsert_by_id (s : Store) (p : Project) :
    (p ∈ SaveProject s p) ∧
    (∀ old ∈ s, old.ID ≠ p.ID → old ∈ SaveProject s p) ∧
    (∀ old ∈ s, old.ID = p.ID → old ≠ p → old ∉ SaveProject s p) ∧
    (∀ q ∈ s, q.Name = p.Name → q.ID ≠ p.ID →
      q ∈ SaveProject s p ∧ q ≠ p) ∧
    SaveProjectRun true false s p = Except.ok (SaveProject s p) := by
  refine ⟨?_, ?_, ?_, ?_, rfl⟩
  · exact List.mem_append_right _ (List.mem_singleton.mpr rfl)
  · intro old hold hne
    apply List.mem_append_left
    unfold deleteById
    exact List.mem_filter.mpr ⟨hold, bne_iff_ne.mpr hne⟩
  · intro old hold hid hne hmem
    rcases List.mem_append.mp hmem with hl | hr
    · have := (List.mem_filter.mp hl).2
      exact (bne_iff_ne.mp this) hid
    · exact hne (List.mem_singleton.mp hr)
  · intro q hq hname hid
    refine ⟨?_, ?_⟩
    · apply List.mem_append_left
      unfold deleteById
      exact List.mem_filter.mpr ⟨hq, bne_iff_ne.mpr hid⟩
    · intro heq
      exact hid (congrArg Project.ID heq)

/-- Witness for C2: saving `recB` over a store holding `rowA` (same name
"n", different id) keeps both rows. -/
theorem saveProject_upsert_by_id_witness :
    recB ∈ SaveProject [rowA] recB ∧
    rowA ∈ SaveProject [rowA] recB ∧
    rowA ≠ recB := by
  have h := saveProject_upsert_by_id [rowA] recB
  have h4 := h.2.2.2.1 rowA (List.mem_singleton.mpr rfl) (by decide) (by decide)
  exact ⟨h.1, h4.1, h4.2⟩

/-- C4 counterexample: the store already holds `rowA` (name "n", id "A");
`init` registers `recB` (name "n", id "B"); the subsequent lookup of "n"
returns the OLD row `rowA`, not the record that was written. -/
theorem init_roundTrip_counterexample :
    LoadProject (InitProject (fun _ => "") [] [rowA] recB).2 recB.Name =
      Except.ok rowA ∧
    rowA ≠ recB :=
  ⟨rfl, by decide⟩

/-- C4 (amended): if no stored row shares the record's name under a
different id, then a record registered via `init` and looked up by name
is returned with all five field values identical to those written. -/
theorem init_roundTrip (marshal : Project → String) (fs : FS) (s : Store)
    (p : Project) (h : ∀ q ∈ s, q.Name = p.Name → q.ID = p.ID) :
    LoadProject (InitProject marshal fs s p).2 p.Name = Except.ok p := by
  show LoadProject (SaveProject s p) p.Name = Except.ok p
  unfold LoadProject SaveProject
  have hnone : List.find? (fun row => row.Name == p.Name) (deleteById s p.ID) = none := by
    apply List.find?_eq_none.mpr
    intro q hq
    have hid := bne_iff_ne.mp (List.mem_filter.mp hq).2
    have hqs := (List.mem_filter.mp hq).1
    intro hbeq
    exact hid (h q hqs (beq_iff_eq.mp hbeq))
  rw [List.find?_append, hnone]
  simp

/-- Witness for C4 (amended): re-registering id "A" under the name "n"
over a store already holding `rowA` (same id) round-trips. -/
theorem init_roundTrip_witness :
    LoadProject (InitProject (fun _ => "") [] [rowA] rowA2).2 rowA2.Name =
      Except.ok rowA2 :=
  init_roundTrip (fun _ => "") [] [rowA] rowA2 (by decide)

/-- C5 counterexample: the subprocess exits 1 after writing "boom" to
stdout, but the fatal error message is the bare Go string
"exit status 1": the captured stdout never appears in it (and stderr is
not captured at all). -/
theorem startProject_error_message_counterexample :
    StartProject failShell [rowA] "n" =
      Except.error (Failure.cliError "exit status 1") ∧
    ¬ List.IsInfix "boom".data "exit status 1".data :=
  ⟨rfl, by decide⟩

/-- C5 (amended): a non-zero subprocess exit makes `start` (and `stop`
for the teardown command) terminate with a fatal CLI error, but its
message is only Go's `exit status N` string: neither the captured stdout
nor any stderr output is included. -/
theorem subprocess_failure_fatal (shell : ShellExec) (s : Store)
    (name : String) (p : Project)
    (hp : LoadProject s name = Except.ok p) :
    ((shell (startInvocation p).argv).1 ≠ 0 →
      StartProject shell s name =
        Except.error (Failure.cliError
          (exitStatusMsg (shell (startInvocation p).argv).1))) ∧
    ((shell (stopInvocation p).argv).1 ≠ 0 →
      StopProject shell s name =
        Except.error (Failure.cliError
          (exitStatusMsg (shell (stopInvocation p).argv).1))) := by
  constructor
  · intro hcode
    unfold StartProject
    rw [hp]
    unfold runInvocation
    simp [hcode]
  · intro hcode
    unfold StopProject
    rw [hp]
    unfold runInvocation
    simp [hcode]

/-- Witness for C5 (amended) at a concrete failing shell. -/
theorem subprocess_failure_fatal_witness :
    StartProject failShell [rowA] "n" =
      Except.error (Failure.cliError (exitStatusMsg 1)) ∧
    StopProject failShell [rowA] "n" =
      Except.error (Failure.cliError (exitStatusMsg 1)) := by
  have h := subprocess_failure_fatal failShell [rowA] "n" rowA rfl
  exact ⟨h.1 (by decide), h.2 (by decide)⟩

/-- C8: every record built by the `init` branch of `main` carries the
constant id "123"; after upserting such a record the store holds exactly
one row with id "123"; and a second `init` under a different name
removes the first init-created record from the store. -/
theorem init_constant_id (name path command teardown : String) (s : Store)
    (n2 p2 c2 t2 : String) (hne : name ≠ n2) :
    (mkInitProject name path command teardown).ID = "123" ∧
    List.countP (fun row => row.ID == "123")
      (SaveProject s (mkInitProject name path command teardown)) = 1 ∧
    mkInitProject name path command teardown ∉
      SaveProject (SaveProject s (mkInitProject name path command teardown))
        (mkInitProject n2 p2 c2 t2) := by
  refine ⟨rfl, ?_, ?_⟩
  · unfold SaveProject
    rw [List.countP_append]
    have h0 : List.countP (fun row => row.ID == "123")
        (deleteById s (mkInitProject name path command teardown).ID) = 0 := by
      apply List.countP_eq_zero.mpr
      intro q hq
      have := (List.mem_filter.mp hq).2
      simpa [mkInitProject] using this
    rw [h0]
    simp [mkInitProject]
  · intro hmem
    rcases List.mem_append.mp hmem with hl | hr
    · have := (List.mem_filter.mp hl).2
      simp [mkInitProject] at this
    · have heq := List.mem_singleton.mp hr
      exact hne (congrArg Project.Name heq)

/-- Witness for C8 at concrete flags. -/
theorem init_constant_id_witness :
    (mkInitProject "a" "p" "c" "t").ID = "123" ∧
    List.countP (fun row => row.ID == "123")
      (SaveProject [] (mkInitProject "a" "p" "c" "t")) = 1 ∧
    mkInitProject "a" "p" "c" "t" ∉
      SaveProject (SaveProject [] (mkInitProject "a" "p" "c" "t"))
        (mkInitProject "b" "p" "c" "t") :=
  init_constant_id "a" "p" "c" "t" [] "b" "p" "c" "t" (by decide)

/-- C9: `start` and `stop` leave the subprocess working directory unset
(`dir = none`, so it inherits the invoking process's current directory);
the stored path reaches the shell only as the fourth argv entry — the
positional argument after the `-c` command string — and both commands
run exactly the invocation built this way for the loaded record. -/
theorem start_stop_cwd_inherited (p : Project) (shell : ShellExec)
    (s : Store) (name : String) :
    (startInvocation p).dir = none ∧
    (stopInvocation p).dir = none ∧
    (startInvocation p).argv = ["sh", "-c", p.Command, p.Path] ∧
    (stopInvocation p).argv = ["sh", "-c", p.TearDown, p.Path] ∧
    (startInvocation p).argv[3]? = some p.Path ∧
    (stopInvocation p).argv[3]? = some p.Path ∧
    (∀ q, LoadProject s name = Except.ok q →
      StartProject shell s name = runInvocation shell (startInvocation q) ∧
      StopProject shell s name = runInvocation shell (stopInvocation q)) := by
  refine ⟨rfl, rfl, rfl, rfl, rfl, rfl, ?_⟩
  intro q hq
  constructor
  · unfold StartProject
    rw [hq]
  · unfold StopProject
    rw [hq]

/-- Witness for C9 at a concrete store and shell. -/
theorem start_stop_cwd_inherited_witness :
    StartProject failShell [rowA] "n" =
      runInvocation failShell (startInvocation rowA) ∧
    StopProject failShell [rowA] "n" =
      runInvocation failShell (stopInvocation rowA) :=
  (start_stop_cwd_inherited rowA failShell [rowA] "n").2.2.2.2.2.2 rowA rfl

/-- C10: when preparing the insert statement fails, `SaveProject` (whose
`Prepare` error is dropped) dereferences the nil statement and dies with
the Go nil-pointer runtime panic — it never reaches the designed
`cliError` path and never succeeds. -/
theorem saveProject_prepare_unchecked (execFails : Bool) (s : Store)
    (p : Project) :
    SaveProjectRun false execFails s p =
      Except.error (Failure.goPanic nilDerefMsg) ∧
    (∀ m, SaveProjectRun false execFails s p ≠
      Except.error (Failure.cliError m)) ∧
    (∀ s2, SaveProjectRun false execFails s p ≠ Except.ok s2) := by
  refine ⟨rfl, ?_, ?_⟩
  · intro m h
    rw [show SaveProjectRun false execFails s p =
      Except.error (Failure.goPanic nilDerefMsg) from rfl] at h
    cases h
  · intro s2 h
    rw [show SaveProjectRun false execFails s p =
      Except.error (Failure.goPanic nilDerefMsg) from rfl] at h
    cases h

/-- Witness for C10 at a concrete record and store. -/
theorem saveProject_prepare_unchecked_witness :
    SaveProjectRun false false [] rowA =
      Except.error (Failure.goPanic nilDerefMsg) :=
  (saveProject_prepare_unchecked false [] rowA).1
